/-
Verification of the signal-generation and portfolio-simulation engine in
ta_functions.py.

Shallow embedding conventions:
* Python floats that carry prices and cash amounts are modelled as exact
  rationals (ℚ); where the source takes a square root (Bollinger standard
  deviation) the embedding moves to ℝ.
* Python `int` share counts are modelled as ℤ.
* A Python `dict` from ticker symbols to share counts is modelled as an
  association list that updates in place and inserts new keys at the end,
  matching insertion-ordered dict semantics.
* A method that can `raise` is modelled as a function into
  `Except String α`; a raise happens before any mutation in the source,
  so the functional all-or-nothing semantics is faithful.
* Pandas columns are modelled positionally: a column over a price list
  `xs` is a function `ℕ → Option ℚ` where `none` stands for NaN, and
  `dropna` keeps exactly the indices at which every column is `some`.
-/

import Mathlib

set_option maxHeartbeats 1000000

/-! ## Transactions and the portfolio (class security_portfolio) -/

/-- One row of `trans_df`:
`[trans_date, ticker_symbol, trans_type, security_price, security_price * amount, total_cash_amt]`. -/
structure Transaction where
  date : ℕ
  security : String
  trans_type : String
  security_price : ℚ
  amt : ℚ
  total_cash_amt : ℚ
  deriving DecidableEq, Repr

/-- Lookup in an insertion-ordered association list (Python `dict.get` /
`dict[k]` combined with the `k in d` membership test). -/
def dictGet (d : List (String × ℤ)) (k : String) : Option ℤ :=
  match d with
  | [] => none
  | e :: rest => if e.1 = k then some e.2 else dictGet rest k

/-- In-place update of an insertion-ordered association list: replaces the
value at an existing key, otherwise appends the new binding at the end
(Python `d[k] = v`). -/
def dictSet (d : List (String × ℤ)) (k : String) (v : ℤ) : List (String × ℤ) :=
  match d with
  | [] => [(k, v)]
  | e :: rest => if e.1 = k then (k, v) :: rest else e :: dictSet rest k v

/-- State of `security_portfolio`: starting cash, current cash, the
per-ticker share counts, and the transaction log. -/
structure security_portfolio where
  start_cash_amt : ℚ
  total_cash_amt : ℚ
  security_dict : List (String × ℤ)
  trans_df : List Transaction
  deriving DecidableEq, Repr

namespace security_portfolio

/-- `security_portfolio.__init__(total_cash_amt)`. -/
def init (total_cash_amt : ℚ) : security_portfolio :=
  { start_cash_amt := total_cash_amt
    total_cash_amt := total_cash_amt
    security_dict := []
    trans_df := [] }

/-- `security_portfolio.buy_securities`.  Checks
`amount * security_price <= self.total_cash_amt`, then increments the
ticker's share count (creating the entry if absent), decreases cash and
appends one `Buy` row; otherwise raises. -/
def buy_securities (port : security_portfolio) (ticker_symbol : String)
    (amount : ℤ) (security_price : ℚ) (trans_date : ℕ) :
    Except String security_portfolio :=
  if (amount : ℚ) * security_price ≤ port.total_cash_amt then
    let dict' :=
      match dictGet port.security_dict ticker_symbol with
      | some n => dictSet port.security_dict ticker_symbol (n + amount)
      | none => dictSet port.security_dict ticker_symbol amount
    let cash' := port.total_cash_amt - (amount : ℚ) * security_price
    .ok { port with
            security_dict := dict'
            total_cash_amt := cash'
            trans_df := port.trans_df ++
              [{ date := trans_date
                 security := ticker_symbol
                 trans_type := "Buy"
                 security_price := security_price
                 amt := security_price * (amount : ℚ)
                 total_cash_amt := cash' }] }
  else
    .error ("You do not own enough cash to purchase this many securities.")

/-- `security_portfolio.buy_max_securities`:
`amount = int(np.floor(self.total_cash_amt / security_price))`, then
`buy_securities`. -/
def buy_max_securities (port : security_portfolio) (ticker_symbol : String)
    (security_price : ℚ) (trans_date : ℕ) : Except String security_portfolio :=
  port.buy_securities ticker_symbol ⌊port.total_cash_amt / security_price⌋
    security_price trans_date

/-- `security_portfolio.sell_securities`.  Raises when the ticker is not in
`security_dict` or when `amount > num_of_security`; otherwise decrements
the share count, increases cash and appends one `Sell` row. -/
def sell_securities (port : security_portfolio) (ticker_symbol : String)
    (amount : ℤ) (security_price : ℚ) (trans_date : ℕ) :
    Except String security_portfolio :=
  match dictGet port.security_dict ticker_symbol with
  | some num_of_security =>
    if num_of_security < amount then
      .error ("You do not have " ++ toString amount ++
        " shares in this security. Specify lower amount, less than " ++
        toString num_of_security ++ ".")
    else
      let cash' := port.total_cash_amt + (amount : ℚ) * security_price
      .ok { port with
              security_dict :=
                dictSet port.security_dict ticker_symbol (num_of_security - amount)
              total_cash_amt := cash'
              trans_df := port.trans_df ++
                [{ date := trans_date
                   security := ticker_symbol
                   trans_type := "Sell"
                   security_price := security_price
                   amt := security_price * (amount : ℚ)
                   total_cash_amt := cash' }] }
  | none => .error ("You do not own shares in this security.")

/-- `security_portfolio.sell_all_securities`: sells the full held amount of
the ticker, raising when the ticker is absent. -/
def sell_all_securities (port : security_portfolio) (ticker_symbol : String)
    (security_price : ℚ) (trans_date : ℕ) : Except String security_portfolio :=
  match dictGet port.security_dict ticker_symbol with
  | some amount => port.sell_securities ticker_symbol amount security_price trans_date
  | none => .error ("You do not own shares in this security.")

end security_portfolio

/-- A caller that catches the exception observes the unchanged portfolio:
a raise in the source happens before any field is mutated. -/
def tryOp (port : security_portfolio) (r : Except String security_portfolio) :
    security_portfolio :=
  match r with
  | .ok q => q
  | .error _ => port

/-! ## Basic dictionary lemmas -/

theorem dictGet_dictSet_self (d : List (String × ℤ)) (k : String) (v : ℤ) :
    dictGet (dictSet d k v) k = some v := by
  induction d with
  | nil => simp [dictGet, dictSet]
  | cons e rest ih =>
    by_cases h : e.1 = k
    · simp [dictGet, dictSet, h]
    · simp [dictGet, dictSet, h, ih]

theorem mem_dictSet {d : List (String × ℤ)} {k : String} {v : ℤ}
    {e : String × ℤ} (he : e ∈ dictSet d k v) : e = (k, v) ∨ e ∈ d := by
  induction d with
  | nil => simpa [dictSet] using he
  | cons f rest ih =>
    by_cases h : f.1 = k
    · simp only [dictSet, h, if_pos, List.mem_cons] at he
      rcases he with h1 | h2
      · exact Or.inl h1
      · exact Or.inr (List.mem_cons_of_mem _ h2)
    · simp only [dictSet, h, if_neg, not_false_iff, List.mem_cons] at he
      rcases he with h1 | h2
      · exact Or.inr (h1 ▸ List.mem_cons_self _ _)
      · rcases ih h2 with h3 | h4
        · exact Or.inl h3
        · exact Or.inr (List.mem_cons_of_mem _ h4)

theorem dictGet_mem {d : List (String × ℤ)} {k : String} {n : ℤ}
    (h : dictGet d k = some n) : (k, n) ∈ d := by
  induction d with
  | nil => simp [dictGet] at h
  | cons e rest ih =>
    by_cases hk : e.1 = k
    · simp only [dictGet, hk, if_pos, Option.some.injEq] at h
      subst h
      exact hk ▸ (Prod.mk.eta (p := e) ▸ List.mem_cons_self _ _)
    · simp only [dictGet, hk, if_neg, not_false_iff] at h
      exact List.mem_cons_of_mem _ (ih h)

/-! ## Operation traces over a portfolio (for the state invariant) -/

/-- One call against a `security_portfolio` in a trading session. -/
inductive PortOp where
  | buy (ticker : String) (amount : ℤ) (price : ℚ) (tdate : ℕ)
  | buyMax (ticker : String) (price : ℚ) (tdate : ℕ)
  | sell (ticker : String) (amount : ℤ) (price : ℚ) (tdate : ℕ)
  | sellAll (ticker : String) (price : ℚ) (tdate : ℕ)
  deriving DecidableEq, Repr

/-- Well-formed call: positive price, and a non-negative amount where an
amount is passed explicitly. -/
def PortOp.wf : PortOp → Prop
  | .buy _ amount price _ => 0 < price ∧ 0 ≤ amount
  | .buyMax _ price _ => 0 < price
  | .sell _ amount price _ => 0 < price ∧ 0 ≤ amount
  | .sellAll _ price _ => 0 < price

instance : DecidablePred PortOp.wf := by
  intro op
  cases op <;> simp only [PortOp.wf] <;> infer_instance

/-- Dispatch one call to the portfolio method it names. -/
def PortOp.apply (port : security_portfolio) : PortOp → Except String security_portfolio
  | .buy t amount price tdate => port.buy_securities t amount price tdate
  | .buyMax t price tdate => port.buy_max_securities t price tdate
  | .sell t amount price tdate => port.sell_securities t amount price tdate
  | .sellAll t price tdate => port.sell_all_securities t price tdate

/-- Execute one call, a failed call raising and leaving the state as it was. -/
def execOp (port : security_portfolio) (op : PortOp) : security_portfolio :=
  tryOp port (op.apply port)

/-- The state invariant of the ledger: cash is non-negative and so is every
per-security share count. -/
def portInv (port : security_portfolio) : Prop :=
  0 ≤ port.total_cash_amt ∧ ∀ e ∈ port.security_dict, 0 ≤ e.2

instance : DecidablePred portInv := by
  intro port
  unfold portInv
  infer_instance

theorem portInv_dictGet {port : security_portfolio} (h : portInv port)
    {k : String} {n : ℤ} (hk : dictGet port.security_dict k = some n) : 0 ≤ n :=
  h.2 _ (dictGet_mem hk)

theorem portInv_buy {port : security_portfolio} (h : portInv port)
    {t : String} {a : ℤ} {p : ℚ} {d : ℕ} (ha : 0 ≤ a) :
    portInv (tryOp port (port.buy_securities t a p d)) := by
  unfold security_portfolio.buy_securities
  by_cases hc : (a : ℚ) * p ≤ port.total_cash_amt
  · rw [if_pos hc]
    constructor
    · simpa [tryOp] using sub_nonneg.mpr hc
    · intro e he
      simp only [tryOp] at he
      rcases hget : dictGet port.security_dict t with _ | n
      · simp only [hget] at he
        rcases mem_dictSet he with rfl | hmem
        · exact ha
        · exact h.2 _ hmem
      · simp only [hget] at he
        rcases mem_dictSet he with rfl | hmem
        · exact add_nonneg (portInv_dictGet h hget) ha
        · exact h.2 _ hmem
  · rw [if_neg hc]
    simpa [tryOp] using h

theorem portInv_sell {port : security_portfolio} (h : portInv port)
    {t : String} {a : ℤ} {p : ℚ} {d : ℕ} (ha : 0 ≤ a) (hp : 0 < p) :
    portInv (tryOp port (port.sell_securities t a p d)) := by
  unfold security_portfolio.sell_securities
  rcases hget : dictGet port.security_dict t with _ | n
  · dsimp only
    simpa [tryOp] using h
  · dsimp only
    by_cases hlt : n < a
    · rw [if_pos hlt]
      simpa [tryOp] using h
    · rw [if_neg hlt]
      constructor
      · have : 0 ≤ (a : ℚ) * p :=
          mul_nonneg (by exact_mod_cast ha) hp.le
        simpa [tryOp] using add_nonneg h.1 this
      · intro e he
        simp only [tryOp] at he
        rcases mem_dictSet he with rfl | hmem
        · simpa using le_of_not_lt hlt
        · exact h.2 _ hmem

theorem portInv_execOp {port : security_portfolio} (h : portInv port)
    {op : PortOp} (hwf : op.wf) : portInv (execOp port op) := by
  cases op with
  | buy t a p d => exact portInv_buy h hwf.2
  | buyMax t p d =>
    have ha : (0 : ℤ) ≤ ⌊port.total_cash_amt / p⌋ :=
      Int.floor_nonneg.mpr (div_nonneg h.1 (le_of_lt hwf))
    exact portInv_buy h ha
  | sell t a p d => exact portInv_sell h hwf.2 hwf.1
  | sellAll t p d =>
    unfold execOp PortOp.apply security_portfolio.sell_all_securities
    dsimp only
    rcases hget : dictGet port.security_dict t with _ | n
    · dsimp only
      simpa [tryOp] using h
    · dsimp only
      exact portInv_sell h (portInv_dictGet h hget) hwf

/-! ## Success-case equations for the trade primitives -/

theorem buy_securities_ok {port : security_portfolio} {t : String} {a : ℤ}
    {p : ℚ} {d : ℕ} (hc : (a : ℚ) * p ≤ port.total_cash_amt) :
    port.buy_securities t a p d = .ok
      { port with
          security_dict :=
            (match dictGet port.security_dict t with
             | some n => dictSet port.security_dict t (n + a)
             | none => dictSet port.security_dict t a)
          total_cash_amt := port.total_cash_amt - (a : ℚ) * p
          trans_df := port.trans_df ++
            [{ date := d
               security := t
               trans_type := "Buy"
               security_price := p
               amt := p * (a : ℚ)
               total_cash_amt := port.total_cash_amt - (a : ℚ) * p }] } := by
  unfold security_portfolio.buy_securities
  rw [if_pos hc]

theorem sell_securities_ok {port : security_portfolio} {t : String} {n a : ℤ}
    {p : ℚ} {d : ℕ} (hget : dictGet port.security_dict t = some n)
    (hle : ¬ n < a) :
    port.sell_securities t a p d = .ok
      { port with
          security_dict := dictSet port.security_dict t (n - a)
          total_cash_amt := port.total_cash_amt + (a : ℚ) * p
          trans_df := port.trans_df ++
            [{ date := d
               security := t
               trans_type := "Sell"
               security_price := p
               amt := p * (a : ℚ)
               total_cash_amt := port.total_cash_amt + (a : ℚ) * p }] } := by
  unfold security_portfolio.sell_securities
  rw [hget]
  dsimp only
  rw [if_neg hle]

theorem portInv_foldl (ops : List PortOp) (port : security_portfolio)
    (h : portInv port) (hwf : ∀ op ∈ ops, op.wf) :
    portInv (ops.foldl execOp port) := by
  induction ops generalizing port with
  | nil => simpa using h
  | cons op rest ih =>
    simp only [List.foldl_cons]
    exact ih _ (portInv_execOp h (hwf op (List.mem_cons_self _ _)))
      (fun o ho => hwf o (List.mem_cons_of_mem _ ho))

/-! ## Claim theorems about the portfolio -/

/-- C1: for every `security_portfolio` created with a non-negative starting
cash amount, after every sequence of `buy_securities` /
`buy_max_securities` / `sell_securities` / `sell_all_securities` calls with
positive prices and non-negative amounts — a failed call raising and
leaving the state as it was — the cash balance `total_cash_amt` is ≥ 0 and
every per-security share count in `security_dict` is ≥ 0. -/
theorem portfolio_nonnegative_invariant (c : ℚ) (ops : List PortOp)
    (hc : 0 ≤ c) (hwf : ∀ op ∈ ops, op.wf) :
    0 ≤ (ops.foldl execOp (security_portfolio.init c)).total_cash_amt ∧
    ∀ e ∈ (ops.foldl execOp (security_portfolio.init c)).security_dict, 0 ≤ e.2 :=
  portInv_foldl ops (security_portfolio.init c)
    ⟨hc, by simp [security_portfolio.init]⟩ hwf

/-- Witness for C1 on a concrete session: a buy, an over-sized sell that
fails and leaves the state as it was, a max-buy and a full liquidation. -/
theorem portfolio_nonnegative_invariant_witness :
    0 ≤ (([PortOp.buy ("aapl") 2 3 0, PortOp.sell ("aapl") 5 4 1,
           PortOp.buyMax ("aapl") 4 2, PortOp.sellAll ("aapl") 6 3]).foldl
            execOp (security_portfolio.init 10)).total_cash_amt ∧
    ∀ e ∈ (([PortOp.buy ("aapl") 2 3 0, PortOp.sell ("aapl") 5 4 1,
             PortOp.buyMax ("aapl") 4 2, PortOp.sellAll ("aapl") 6 3]).foldl
              execOp (security_portfolio.init 10)).security_dict, 0 ≤ e.2 :=
  portfolio_nonnegative_invariant 10
    [PortOp.buy ("aapl") 2 3 0, PortOp.sell ("aapl") 5 4 1,
     PortOp.buyMax ("aapl") 4 2, PortOp.sellAll ("aapl") 6 3]
    (by norm_num) (by decide)

/-- C2: for every portfolio with cash balance `C ≥ 0` and price `P > 0`,
`buy_max_securities` purchases exactly `⌊C/P⌋` shares and the resulting
cash balance equals `C - ⌊C/P⌋·P`, which is strictly less than `P`. -/
theorem buy_max_sizing (port : security_portfolio) (t : String) (p : ℚ)
    (d : ℕ) (hC : 0 ≤ port.total_cash_amt) (hp : 0 < p) :
    ∃ port', port.buy_max_securities t p d = .ok port' ∧
      dictGet port'.security_dict t =
        some ((dictGet port.security_dict t).getD 0 + ⌊port.total_cash_amt / p⌋) ∧
      port'.total_cash_amt =
        port.total_cash_amt - (⌊port.total_cash_amt / p⌋ : ℚ) * p ∧
      port'.trans_df = port.trans_df ++
        [{ date := d
           security := t
           trans_type := "Buy"
           security_price := p
           amt := p * (⌊port.total_cash_amt / p⌋ : ℚ)
           total_cash_amt :=
             port.total_cash_amt - (⌊port.total_cash_amt / p⌋ : ℚ) * p }] ∧
      port'.total_cash_amt < p := by
  have hc : ((⌊port.total_cash_amt / p⌋ : ℤ) : ℚ) * p ≤ port.total_cash_amt := by
    calc ((⌊port.total_cash_amt / p⌋ : ℤ) : ℚ) * p
        ≤ port.total_cash_amt / p * p :=
          mul_le_mul_of_nonneg_right (Int.floor_le _) hp.le
      _ = port.total_cash_amt := div_mul_cancel₀ _ hp.ne'
  have hlt : port.total_cash_amt - (⌊port.total_cash_amt / p⌋ : ℚ) * p < p := by
    have h1 : port.total_cash_amt / p < (⌊port.total_cash_amt / p⌋ : ℚ) + 1 :=
      Int.lt_floor_add_one _
    have h2 : port.total_cash_amt < ((⌊port.total_cash_amt / p⌋ : ℚ) + 1) * p := by
      calc port.total_cash_amt = port.total_cash_amt / p * p :=
            (div_mul_cancel₀ _ hp.ne').symm
        _ < ((⌊port.total_cash_amt / p⌋ : ℚ) + 1) * p :=
            mul_lt_mul_of_pos_right h1 hp
    nlinarith
  unfold security_portfolio.buy_max_securities
  rw [buy_securities_ok hc]
  refine ⟨_, rfl, ?_, rfl, rfl, hlt⟩
  rcases hget : dictGet port.security_dict t with _ | n
  · simp [hget, dictGet_dictSet_self]
  · simp [hget, dictGet_dictSet_self]

/-- Witness for C2: starting cash 10 on a price of 3 buys ⌊10/3⌋ = 3
shares and leaves cash 1 < 3. -/
theorem buy_max_sizing_witness :
    ∃ port', (security_portfolio.init 10).buy_max_securities ("a") 3 0 = .ok port' ∧
      dictGet port'.security_dict "a" =
        some ((dictGet (security_portfolio.init 10).security_dict "a").getD 0 +
          ⌊(security_portfolio.init 10).total_cash_amt / 3⌋) ∧
      port'.total_cash_amt =
        (security_portfolio.init 10).total_cash_amt -
          (⌊(security_portfolio.init 10).total_cash_amt / 3⌋ : ℚ) * 3 ∧
      port'.trans_df = (security_portfolio.init 10).trans_df ++
        [{ date := 0
           security := "a"
           trans_type := "Buy"
           security_price := 3
           amt := 3 * (⌊(security_portfolio.init 10).total_cash_amt / 3⌋ : ℚ)
           total_cash_amt :=
             (security_portfolio.init 10).total_cash_amt -
               (⌊(security_portfolio.init 10).total_cash_amt / 3⌋ : ℚ) * 3 }] ∧
      port'.total_cash_amt < 3 :=
  buy_max_sizing (security_portfolio.init 10) "a" 3 0 (by decide) (by norm_num)

/-- C7: `buy_securities` raises the insufficient-funds error exactly when
`amount × price` strictly exceeds the cash balance; on success it appends
exactly one transaction recording the post-trade cash balance, and on
error the portfolio a caller keeps is unchanged. -/
theorem buy_securities_spec (port : security_portfolio) (t : String) (a : ℤ)
    (p : ℚ) (d : ℕ) :
    if (a : ℚ) * p ≤ port.total_cash_amt then
      ∃ port', port.buy_securities t a p d = .ok port' ∧
        port'.total_cash_amt = port.total_cash_amt - (a : ℚ) * p ∧
        port'.trans_df = port.trans_df ++
          [{ date := d
             security := t
             trans_type := "Buy"
             security_price := p
             amt := p * (a : ℚ)
             total_cash_amt := port'.total_cash_amt }]
    else
      port.buy_securities t a p d =
        .error ("You do not own enough cash to purchase this many securities.") ∧
      tryOp port (port.buy_securities t a p d) = port := by
  by_cases hc : (a : ℚ) * p ≤ port.total_cash_amt
  · rw [if_pos hc]
    exact ⟨_, buy_securities_ok hc, rfl, rfl⟩
  · rw [if_neg hc]
    have herr : port.buy_securities t a p d =
        .error ("You do not own enough cash to purchase this many securities.") := by
      unfold security_portfolio.buy_securities
      rw [if_neg hc]
    exact ⟨herr, by rw [herr]; rfl⟩

/-- C8: `sell_securities` raises exactly when the ticker is absent from
the holdings or the amount strictly exceeds the held count; on success it
decreases the holding by the amount, increases cash by `amount × price`
and appends exactly one transaction; on error the portfolio a caller
keeps is unchanged. -/
theorem sell_securities_spec (port : security_portfolio) (t : String) (a : ℤ)
    (p : ℚ) (d : ℕ) :
    match dictGet port.security_dict t with
    | none =>
        port.sell_securities t a p d =
          .error ("You do not own shares in this security.") ∧
        tryOp port (port.sell_securities t a p d) = port
    | some n =>
        if a ≤ n then
          ∃ port', port.sell_securities t a p d = .ok port' ∧
            dictGet port'.security_dict t = some (n - a) ∧
            port'.total_cash_amt = port.total_cash_amt + (a : ℚ) * p ∧
            port'.trans_df = port.trans_df ++
              [{ date := d
                 security := t
                 trans_type := "Sell"
                 security_price := p
                 amt := p * (a : ℚ)
                 total_cash_amt := port'.total_cash_amt }]
        else
          (∃ e, port.sell_securities t a p d = .error e) ∧
          tryOp port (port.sell_securities t a p d) = port := by
  rcases hget : dictGet port.security_dict t with _ | n
  · have herr : port.sell_securities t a p d =
        .error ("You do not own shares in this security.") := by
      unfold security_portfolio.sell_securities
      rw [hget]
    exact ⟨herr, by rw [herr]; rfl⟩
  · dsimp only
    by_cases hle : a ≤ n
    · rw [if_pos hle]
      refine ⟨_, sell_securities_ok hget (not_lt.mpr hle), ?_, rfl, rfl⟩
      simp [dictGet_dictSet_self]
    · rw [if_neg hle]
      have herr : port.sell_securities t a p d =
          .error ("You do not have " ++ toString a ++
            " shares in this security. Specify lower amount, less than " ++
            toString n ++ ".") := by
        unfold security_portfolio.sell_securities
        rw [hget]
        dsimp only
        rw [if_pos (not_le.mp hle)]
      exact ⟨⟨_, herr⟩, by rw [herr]; rfl⟩

/-- C10: with `0 < cash < price`, `buy_max_securities` does not raise: it
executes a buy of zero shares, leaving cash unchanged, creating (or
keeping) the ticker's holdings entry, and appending one `Buy` transaction
of amount 0. -/
theorem buy_max_zero_shares (port : security_portfolio) (t : String)
    (p : ℚ) (d : ℕ) (h1 : 0 < port.total_cash_amt)
    (h2 : port.total_cash_amt < p) :
    ∃ port', port.buy_max_securities t p d = .ok port' ∧
      port'.total_cash_amt = port.total_cash_amt ∧
      dictGet port'.security_dict t =
        some ((dictGet port.security_dict t).getD 0) ∧
      port'.trans_df = port.trans_df ++
        [{ date := d
           security := t
           trans_type := "Buy"
           security_price := p
           amt := 0
           total_cash_amt := port.total_cash_amt }] := by
  have hp : 0 < p := lt_trans h1 h2
  have hfl : ⌊port.total_cash_amt / p⌋ = 0 := by
    rw [Int.floor_eq_zero_iff]
    exact ⟨div_nonneg h1.le hp.le, (div_lt_one hp).mpr h2⟩
  have hc : (((0 : ℤ) : ℚ)) * p ≤ port.total_cash_amt := by
    simpa using h1.le
  unfold security_portfolio.buy_max_securities
  rw [hfl, buy_securities_ok hc]
  refine ⟨_, rfl, by simp, ?_, by simp⟩
  rcases hget : dictGet port.security_dict t with _ | n
  · simp [hget, dictGet_dictSet_self]
  · simp [hget, dictGet_dictSet_self]

/-- Witness for C10: cash 5, price 7 — a zero-share buy that leaves the
cash at 5 and logs one `Buy` transaction of amount 0. -/
theorem buy_max_zero_shares_witness :
    ∃ port', (security_portfolio.init 5).buy_max_securities ("xom") 7 4 = .ok port' ∧
      port'.total_cash_amt = (security_portfolio.init 5).total_cash_amt ∧
      dictGet port'.security_dict "xom" =
        some ((dictGet (security_portfolio.init 5).security_dict "xom").getD 0) ∧
      port'.trans_df = (security_portfolio.init 5).trans_df ++
        [{ date := 4
           security := "xom"
           trans_type := "Buy"
           security_price := 7
           amt := 0
           total_cash_amt := (security_portfolio.init 5).total_cash_amt }] :=
  buy_max_zero_shares (security_portfolio.init 5) "xom" 7 4 (by decide) (by decide)

/-! ## Moving averages and crossover detection (generate_ma_columns) -/

/-- `series.rolling(n).mean()` at row `i`: the arithmetic mean of the `n`
observations ending at `i` (inclusive), NaN while fewer than `n`
observations exist. -/
def rollingMean (n : ℕ) (xs : List ℚ) (i : ℕ) : Option ℚ :=
  if 1 ≤ n ∧ n ≤ i + 1 ∧ i < xs.length then
    some (((List.range n).map (fun k => xs.getD (i - k) 0)).sum / (n : ℚ))
  else none

/-- The `ma_diff` column: `short_ma - long_ma` (NaN-propagating). -/
def ma_diff (xs : List ℚ) (nshort nlong : ℕ) (i : ℕ) : Option ℚ :=
  match rollingMean nshort xs i, rollingMean nlong xs i with
  | some a, some b => some (a - b)
  | _, _ => none

/-- The raw crossover column `[0] + (diff[:-1] * diff[1:]).tolist()`:
position 0 holds the literal 0 and position `i ≥ 1` holds
`diff[i-1] * diff[i]` (NaN-propagating). -/
def crossoverRaw (xs : List ℚ) (nshort nlong : ℕ) (i : ℕ) : Option ℚ :=
  if i < xs.length then
    if i = 0 then some 0
    else
      match ma_diff xs nshort nlong (i - 1), ma_diff xs nshort nlong i with
      | some a, some b => some (a * b)
      | _, _ => none
  else none

/-- `np.sign`. -/
def npSign (q : ℚ) : ℚ := if q < 0 then -1 else if q = 0 then 0 else 1

/-- The pandas `.map({1: 0, 0: 0, -1: 1})`: values missing from the dict
are sent to NaN. -/
def crossoverMapDict (s : ℚ) : Option ℚ :=
  if s = 1 then some 0
  else if s = 0 then some 0
  else if s = -1 then some 1
  else none

/-- The crossover flag column: `np.sign` of the raw column, then the dict
map. -/
def crossoverFlag (xs : List ℚ) (nshort nlong : ℕ) (i : ℕ) : Option ℚ :=
  (crossoverRaw xs nshort nlong i).bind (fun v => crossoverMapDict (npSign v))

/-- `(short_ma > long_ma).map({True: 'Buy', False: 'Sell'})`: a pandas
comparison treats a NaN operand as False, hence `'Sell'`. -/
def crossSignalRaw (xs : List ℚ) (nshort nlong : ℕ) (i : ℕ) : String :=
  match rollingMean nshort xs i, rollingMean nlong xs i with
  | some a, some b => if b < a then "Buy" else "Sell"
  | _, _ => "Sell"

/-- `df.loc[df[crossover_col] == 0, signal_col] = 'N/A'`: a NaN crossover
entry does not compare equal to 0 and keeps its raw signal (that row is
dropped later anyway). -/
def crossSignal (xs : List ℚ) (nshort nlong : ℕ) (i : ℕ) : String :=
  if crossoverFlag xs nshort nlong i = some 0 then "N/A"
  else crossSignalRaw xs nshort nlong i

/-- One surviving row of the frame returned by `generate_ma_columns`. -/
structure MARow where
  day : ℕ
  close : ℚ
  short_ma : ℚ
  long_ma : ℚ
  ma_diff : ℚ
  crossover : ℚ
  signal : String
  deriving DecidableEq, Repr

/-- `generate_ma_columns` for one security on one price column.  On a
zero-row frame the crossover list `[0] + []` has length 1 and pandas
raises a length-mismatch `ValueError` at the column assignment; otherwise
the annotated frame is built and `dropna()` keeps exactly the rows at
which every column is defined. -/
def generate_ma_columns (xs : List ℚ) (nshort nlong : ℕ) :
    Except String (List MARow) :=
  if xs.isEmpty then
    .error ("ValueError: Length of values (1) does not match length of index (0)")
  else
    .ok ((List.range xs.length).filterMap (fun i =>
      (rollingMean nshort xs i).bind fun s =>
      (rollingMean nlong xs i).bind fun l =>
      (crossoverFlag xs nshort nlong i).map fun f =>
        { day := i
          close := xs.getD i 0
          short_ma := s
          long_ma := l
          ma_diff := s - l
          crossover := f
          signal := crossSignal xs nshort nlong i }))

theorem crossoverFlag_spec {xs : List ℚ} {nshort nlong i : ℕ} {f : ℚ}
    (hilen : i < xs.length)
    (h : crossoverFlag xs nshort nlong i = some f) :
    (f = 0 ∨ f = 1) ∧
    (f = 1 ↔ ∃ a b, ma_diff xs nshort nlong (i - 1) = some a ∧
       ma_diff xs nshort nlong i = some b ∧ a * b < 0) ∧
    (i = 0 → f = 0) := by
  unfold crossoverFlag crossoverRaw at h
  rw [if_pos hilen] at h
  by_cases h0 : i = 0
  · rw [if_pos h0] at h
    have hf : f = 0 := by
      simp [npSign, crossoverMapDict] at h
      exact h.symm
    subst hf
    refine ⟨Or.inl rfl, ?_, fun _ => rfl⟩
    constructor
    · intro h1
      norm_num at h1
    · rintro ⟨a, b, ha, hb, hab⟩
      rw [h0] at ha hb
      simp only [Nat.zero_sub] at ha
      rw [ha] at hb
      have hab2 : a = b := by injection hb
      rw [hab2] at hab
      exact absurd hab (not_lt.mpr (mul_self_nonneg b))
  · rw [if_neg h0] at h
    rcases hda : ma_diff xs nshort nlong (i - 1) with _ | a
    · rw [hda] at h
      simp at h
    rcases hdb : ma_diff xs nshort nlong i with _ | b
    · rw [hda, hdb] at h
      simp at h
    rw [hda, hdb] at h
    simp only [Option.some_bind] at h
    rcases lt_trichotomy (a * b) 0 with hneg | hzero | hpos
    · have hsg : npSign (a * b) = -1 := by
        simp [npSign, hneg]
      rw [hsg] at h
      have hmap : crossoverMapDict (-1) = some 1 := by
        norm_num [crossoverMapDict]
      rw [hmap] at h
      have hf : f = 1 := (Option.some.inj h).symm
      subst hf
      exact ⟨Or.inr rfl, ⟨fun _ => ⟨a, b, rfl, rfl, hneg⟩, fun _ => rfl⟩,
        fun hi0 => absurd hi0 h0⟩
    · have hsg : npSign (a * b) = 0 := by
        norm_num [npSign, hzero]
      rw [hsg] at h
      have hmap : crossoverMapDict 0 = some 0 := by
        norm_num [crossoverMapDict]
      rw [hmap] at h
      have hf : f = 0 := (Option.some.inj h).symm
      subst hf
      refine ⟨Or.inl rfl, ?_, fun _ => rfl⟩
      constructor
      · intro h1
        norm_num at h1
      · rintro ⟨a', b', ha', hb', hab'⟩
        rw [← Option.some.inj ha', ← Option.some.inj hb', hzero] at hab'
        exact absurd hab' (lt_irrefl 0)
    · have hsg : npSign (a * b) = 1 := by
        simp [npSign, not_lt.mpr hpos.le, hpos.ne']
      rw [hsg] at h
      have hmap : crossoverMapDict 1 = some 0 := by
        norm_num [crossoverMapDict]
      rw [hmap] at h
      have hf : f = 0 := (Option.some.inj h).symm
      subst hf
      refine ⟨Or.inl rfl, ?_, fun _ => rfl⟩
      constructor
      · intro h1
        norm_num at h1
      · rintro ⟨a', b', ha', hb', hab'⟩
        rw [← Option.some.inj ha', ← Option.some.inj hb'] at hab'
        exact absurd hab' (not_lt.mpr hpos.le)

/-- C3 (amended): in the output of `generate_ma_columns`, the crossover
flag on day `d` is 1 exactly when `diff[d-1]` and `diff[d]` are both
defined and of strictly opposite signs (`diff[d-1] * diff[d] < 0`); day 0
of the underlying series always carries flag 0 (though the first row
surviving the NaN-drop may itself be flagged); the signal column is `Buy`
on a flagged day with short MA > long MA, `Sell` on a flagged day
otherwise, and `N/A` on every unflagged day; and a diff series with sign
pattern [+,+,+,−,−,+,+] yields exactly 2 flagged days. -/
theorem ma_crossover_spec_amended :
    (∀ (xs : List ℚ) (nshort nlong : ℕ) (rows : List MARow) (row : MARow),
      generate_ma_columns xs nshort nlong = .ok rows → row ∈ rows →
      (row.crossover = 1 ↔
        ∃ a b, ma_diff xs nshort nlong (row.day - 1) = some a ∧
               ma_diff xs nshort nlong row.day = some b ∧ a * b < 0) ∧
      (row.day = 0 → row.crossover = 0) ∧
      (row.signal = "Buy" ↔ row.crossover = 1 ∧ row.long_ma < row.short_ma) ∧
      (row.signal = "Sell" ↔ row.crossover = 1 ∧ ¬ row.long_ma < row.short_ma) ∧
      (row.signal = "N/A" ↔ row.crossover = 0)) ∧
    ((List.range 7).map (fun j =>
        (ma_diff [0, 1, 2, 3, 2, 1, 2, 3] 1 2 (j + 1)).map npSign) =
      [some 1, some 1, some 1, some (-1), some (-1), some 1, some 1] ∧
     ∃ rows, generate_ma_columns [0, 1, 2, 3, 2, 1, 2, 3] 1 2 = .ok rows ∧
       (rows.filter (fun r => decide (r.crossover = 1))).length = 2) := by
  constructor
  · intro xs nshort nlong rows row hok hmem
    unfold generate_ma_columns at hok
    by_cases hxs : xs.isEmpty
    · rw [if_pos hxs] at hok
      exact absurd hok (by simp)
    · rw [if_neg hxs] at hok
      injection hok with hrows
      subst hrows
      rw [List.mem_filterMap] at hmem
      obtain ⟨i, hi, hf⟩ := hmem
      have hilen : i < xs.length := List.mem_range.mp hi
      rcases hs : rollingMean nshort xs i with _ | s
      · rw [hs] at hf
        simp at hf
      rcases hl : rollingMean nlong xs i with _ | l
      · rw [hs, hl] at hf
        simp at hf
      rcases hflag : crossoverFlag xs nshort nlong i with _ | f
      · rw [hs, hl, hflag] at hf
        simp at hf
      rw [hs, hl, hflag] at hf
      simp only [Option.bind, Option.map] at hf
      have hrow : { day := i
                    close := xs.getD i 0
                    short_ma := s
                    long_ma := l
                    ma_diff := s - l
                    crossover := f
                    signal := crossSignal xs nshort nlong i : MARow } = row :=
        Option.some.inj hf
      subst hrow
      obtain ⟨hf01, hiff, h0⟩ := crossoverFlag_spec hilen hflag
      refine ⟨by simpa using hiff, ?_, ?_⟩
      · intro hd
        dsimp only at hd ⊢
        exact h0 hd
      rcases hf01 with hf0 | hf1
      · subst hf0
        have hsig : crossSignal xs nshort nlong i = "N/A" := by
          unfold crossSignal
          rw [hflag]
          simp
        refine ⟨?_, ?_, ?_⟩
        · constructor
          · intro hb
            dsimp only at hb
            rw [hsig] at hb
            exact absurd hb (by decide)
          · rintro ⟨h1, -⟩
            dsimp only at h1
            norm_num at h1
        · constructor
          · intro hb
            dsimp only at hb
            rw [hsig] at hb
            exact absurd hb (by decide)
          · rintro ⟨h1, -⟩
            dsimp only at h1
            norm_num at h1
        · constructor
          · intro _
            rfl
          · intro _
            dsimp only
            exact hsig
      · subst hf1
        have hne : crossoverFlag xs nshort nlong i ≠ some 0 := by
          rw [hflag]
          simp
        have hsig : crossSignal xs nshort nlong i =
            crossSignalRaw xs nshort nlong i := by
          unfold crossSignal
          rw [if_neg hne]
        have hraw : crossSignalRaw xs nshort nlong i =
            if l < s then "Buy" else "Sell" := by
          unfold crossSignalRaw
          rw [hs, hl]
        by_cases hls : l < s
        · refine ⟨?_, ?_, ?_⟩
          · constructor
            · intro _
              exact ⟨rfl, hls⟩
            · intro _
              dsimp only
              rw [hsig, hraw, if_pos hls]
          · constructor
            · intro hb
              dsimp only at hb
              rw [hsig, hraw, if_pos hls] at hb
              exact absurd hb (by decide)
            · rintro ⟨-, hn⟩
              exact absurd hls hn
          · constructor
            · intro hb
              dsimp only at hb
              rw [hsig, hraw, if_pos hls] at hb
              exact absurd hb (by decide)
            · intro h1
              dsimp only at h1
              norm_num at h1
        · refine ⟨?_, ?_, ?_⟩
          · constructor
            · intro hb
              dsimp only at hb
              rw [hsig, hraw, if_neg hls] at hb
              exact absurd hb (by decide)
            · rintro ⟨-, hgt⟩
              exact absurd hgt hls
          · constructor
            · intro _
              exact ⟨rfl, hls⟩
            · intro _
              dsimp only
              rw [hsig, hraw, if_neg hls]
          · constructor
            · intro hb
              dsimp only at hb
              rw [hsig, hraw, if_neg hls] at hb
              exact absurd hb (by decide)
            · intro h1
              dsimp only at h1
              norm_num at h1
  · constructor
    · norm_num [ma_diff, rollingMean, npSign, List.range_succ]
    · have hok :
          generate_ma_columns [0, 1, 2, 3, 2, 1, 2, 3] 1 2 = .ok
            [{ day := 2, close := 2, short_ma := 2, long_ma := 3/2,
               ma_diff := 1/2, crossover := 0, signal := "N/A" },
             { day := 3, close := 3, short_ma := 3, long_ma := 5/2,
               ma_diff := 1/2, crossover := 0, signal := "N/A" },
             { day := 4, close := 2, short_ma := 2, long_ma := 5/2,
               ma_diff := -(1/2), crossover := 1, signal := "Sell" },
             { day := 5, close := 1, short_ma := 1, long_ma := 3/2,
               ma_diff := -(1/2), crossover := 0, signal := "N/A" },
             { day := 6, close := 2, short_ma := 2, long_ma := 3/2,
               ma_diff := 1/2, crossover := 1, signal := "Buy" },
             { day := 7, close := 3, short_ma := 3, long_ma := 5/2,
               ma_diff := 1/2, crossover := 0, signal := "N/A" }] := by
        norm_num [generate_ma_columns, rollingMean, crossoverFlag, crossoverRaw,
          ma_diff, npSign, crossoverMapDict, crossSignal, crossSignalRaw,
          List.range_succ, List.filterMap_cons, List.filterMap_append]
      refine ⟨_, hok, ?_⟩
      norm_num [List.filter]

/-- Counterexample for C3 as stated.  With prices [0,2,2,0] and windows
(1,2) the diff column has signs +1 at day 1 and 0 at day 2, so
sign(diff[2]) ≠ sign(diff[1]); yet the output row for day 2 carries
crossover flag 0, because the code flags only a strictly negative product
`diff[d-1]·diff[d]`.  And with prices [0,2,1] the first row of the output
(day 2) carries crossover flag 1, refuting "the first row is never
flagged". -/
theorem ma_crossover_counterexample :
    (ma_diff [0, 2, 2, 0] 1 2 1).map npSign = some 1 ∧
    (ma_diff [0, 2, 2, 0] 1 2 2).map npSign = some 0 ∧
    generate_ma_columns [0, 2, 2, 0] 1 2 = .ok
      [{ day := 2, close := 2, short_ma := 2, long_ma := 2, ma_diff := 0,
         crossover := 0, signal := "N/A" },
       { day := 3, close := 0, short_ma := 0, long_ma := 1, ma_diff := -1,
         crossover := 0, signal := "N/A" }] ∧
    generate_ma_columns [0, 2, 1] 1 2 = .ok
      [{ day := 2, close := 1, short_ma := 1, long_ma := 3/2, ma_diff := -(1/2),
         crossover := 1, signal := "Sell" }] := by
  refine ⟨?_, ?_, ?_, ?_⟩
  · norm_num [ma_diff, rollingMean, npSign, List.range_succ]
  · norm_num [ma_diff, rollingMean, npSign, List.range_succ]
  · norm_num [generate_ma_columns, rollingMean, crossoverFlag, crossoverRaw,
      ma_diff, npSign, crossoverMapDict, crossSignal, crossSignalRaw,
      List.range_succ, List.filterMap_cons, List.filterMap_append]
  · norm_num [generate_ma_columns, rollingMean, crossoverFlag, crossoverRaw,
      ma_diff, npSign, crossoverMapDict, crossSignal, crossSignalRaw,
      List.range_succ, List.filterMap_cons, List.filterMap_append]

/-- Witness for the amended C3 at the day-2 row of
`generate_ma_columns [0,2,2,0] 1 2`. -/
theorem ma_crossover_spec_amended_witness :
    ((0 : ℚ) = 1 ↔
      ∃ a b, ma_diff [0, 2, 2, 0] 1 2 (2 - 1) = some a ∧
             ma_diff [0, 2, 2, 0] 1 2 2 = some b ∧ a * b < 0) ∧
    ((2 : ℕ) = 0 → (0 : ℚ) = 0) ∧
    ("N/A" = "Buy" ↔ (0 : ℚ) = 1 ∧ (2 : ℚ) < 2) ∧
    ("N/A" = "Sell" ↔ (0 : ℚ) = 1 ∧ ¬ (2 : ℚ) < 2) ∧
    ("N/A" = "N/A" ↔ (0 : ℚ) = 0) :=
  ma_crossover_spec_amended.1 [0, 2, 2, 0] 1 2
    [{ day := 2, close := 2, short_ma := 2, long_ma := 2, ma_diff := 0,
       crossover := 0, signal := "N/A" },
     { day := 3, close := 0, short_ma := 0, long_ma := 1, ma_diff := -1,
       crossover := 0, signal := "N/A" }]
    { day := 2, close := 2, short_ma := 2, long_ma := 2, ma_diff := 0,
      crossover := 0, signal := "N/A" }
    (by norm_num [generate_ma_columns, rollingMean, crossoverFlag, crossoverRaw,
      ma_diff, npSign, crossoverMapDict, crossSignal, crossSignalRaw,
      List.range_succ, List.filterMap_cons, List.filterMap_append])
    (List.mem_cons_self _ _)

/-! ## RSI aggregation (plot_rsi._rsi_agg) -/

/-- `_rsi_agg` inside `plot_rsi`, applied to one lookback window:
`np.diff` of the window, its positive and negative parts, then the branch
ladder over their emptiness.  In the branch taken when there are zero
gains AND zero losses the source assigns `rs = 50` — not `rsi` — and then
executes `return rsi` with the local `rsi` never assigned, raising
`UnboundLocalError`; that branch is modelled as `none`. -/
def rsi_agg (security_array : List ℚ) : Option ℚ :=
  let sec_diff := (security_array.zip security_array.tail).map (fun p => p.2 - p.1)
  let pos_array := sec_diff.filter (fun v => decide (0 < v))
  let neg_array := sec_diff.filter (fun v => decide (v < 0))
  if neg_array.length = 0 ∧ pos_array.length = 0 then
    none
  else if neg_array.length = 0 ∧ 0 < pos_array.length then
    some 100
  else if pos_array.length = 0 ∧ 0 < neg_array.length then
    some 0
  else
    let pos_mean := pos_array.sum / (pos_array.length : ℚ)
    let neg_mean := -(neg_array.sum / (neg_array.length : ℚ))
    some (100 - 100 / (1 + pos_mean / neg_mean))

/-- C4: a strictly increasing window yields RSI 100, a strictly
decreasing one yields 0 and the mixed case yields
`100 − 100/(1 + avg_gain/avg_loss)`; but on a constant window — zero
gains and zero losses — the source assigns `rs = 50` instead of `rsi`
and `return rsi` raises `UnboundLocalError` rather than returning the
neutral 50 the specification promises. -/
theorem rsi_agg_constant_window_bug :
    rsi_agg [5, 5, 5] = none ∧
    rsi_agg [1, 2, 3] = some 100 ∧
    rsi_agg [3, 2, 1] = some 0 ∧
    rsi_agg [1, 3, 2] = some (100 - 100 / (1 + 2 / 1)) := by
  refine ⟨?_, ?_, ?_, ?_⟩ <;>
    norm_num [rsi_agg, List.filter]

/-! ## Bollinger bands (generate_bollinger_columns)

The rolling standard deviation takes a square root, so this part of the
embedding lives in ℝ. -/

/-- `series.rolling(n).mean()` over ℝ. -/
noncomputable def rollingMeanR (n : ℕ) (xs : List ℝ) (i : ℕ) : Option ℝ :=
  if 1 ≤ n ∧ n ≤ i + 1 ∧ i < xs.length then
    some (((List.range n).map (fun k => xs.getD (i - k) 0)).sum / (n : ℝ))
  else none

/-- `series.rolling(n).std()`: the sample standard deviation (`ddof = 1`)
of the `n` observations ending at row `i`; NaN while fewer than `n`
observations exist, and NaN for a window of length 1 (division by
`n - 1 = 0`). -/
noncomputable def rollingStd (n : ℕ) (xs : List ℝ) (i : ℕ) : Option ℝ :=
  if 2 ≤ n ∧ n ≤ i + 1 ∧ i < xs.length then
    some (Real.sqrt
      (((List.range n).map (fun k =>
          (xs.getD (i - k) 0 -
            ((List.range n).map (fun j => xs.getD (i - j) 0)).sum / (n : ℝ)) ^ 2)).sum /
        ((n : ℝ) - 1)))
  else none

/-- One surviving row of the frame returned by
`generate_bollinger_columns`. -/
structure BollRow where
  day : ℕ
  price : ℝ
  bollinger_high : ℝ
  bollinger_low : ℝ
  signal : String

/-- `generate_bollinger_columns` for one security on one price column:
`high = mean + k·std`, `low = mean − k·std`,
`'Buy' if price < low else 'Sell' if price > high else 'N/A'`, then
`dropna()` keeps exactly the rows at which the rolling statistics are
defined. -/
noncomputable def generate_bollinger_columns (xs : List ℝ) (bollinger_std : ℝ)
    (bollinger_len : ℕ) : List BollRow :=
  (List.range xs.length).filterMap (fun i =>
    (rollingMeanR bollinger_len xs i).bind fun m =>
    (rollingStd bollinger_len xs i).map fun sd =>
      { day := i
        price := xs.getD i 0
        bollinger_high := m + bollinger_std * sd
        bollinger_low := m - bollinger_std * sd
        signal :=
          if xs.getD i 0 < m - bollinger_std * sd then "Buy"
          else if m + bollinger_std * sd < xs.getD i 0 then "Sell"
          else "N/A" })

theorem rollingStd_nonneg {n : ℕ} {xs : List ℝ} {i : ℕ} {sd : ℝ}
    (h : rollingStd n xs i = some sd) : 0 ≤ sd := by
  unfold rollingStd at h
  split at h
  · exact Option.some.inj h ▸ Real.sqrt_nonneg _
  · simp at h

/-- C5 (amended): for a non-negative multiplier `k ≥ 0`, every output row
of `generate_bollinger_columns` has `high = mean + k·std` and
`low = mean − k·std` over the `L` observations including the current day,
and the signal is `Buy` exactly when the price is strictly below the low
band, `Sell` exactly when strictly above the high band, and `N/A`
otherwise — a price exactly equal to either band yields `N/A`. -/
theorem bollinger_signal_spec_amended (xs : List ℝ) (k : ℝ) (L : ℕ)
    (hk : 0 ≤ k) :
    ∀ row ∈ generate_bollinger_columns xs k L,
      ∃ m sd, rollingMeanR L xs row.day = some m ∧
        rollingStd L xs row.day = some sd ∧ 0 ≤ sd ∧
        row.price = xs.getD row.day 0 ∧
        row.bollinger_high = m + k * sd ∧
        row.bollinger_low = m - k * sd ∧
        (row.signal = "Buy" ↔ row.price < row.bollinger_low) ∧
        (row.signal = "Sell" ↔ row.bollinger_high < row.price) ∧
        (row.signal = "N/A" ↔
          ¬ row.price < row.bollinger_low ∧ ¬ row.bollinger_high < row.price) := by
  intro row hmem
  unfold generate_bollinger_columns at hmem
  rw [List.mem_filterMap] at hmem
  obtain ⟨i, hi, hf⟩ := hmem
  rcases hm : rollingMeanR L xs i with _ | m
  · rw [hm] at hf
    simp at hf
  rcases hsd : rollingStd L xs i with _ | sd
  · rw [hm, hsd] at hf
    simp at hf
  rw [hm, hsd] at hf
  simp only [Option.bind, Option.map] at hf
  have hrow : { day := i
                price := xs.getD i 0
                bollinger_high := m + k * sd
                bollinger_low := m - k * sd
                signal :=
                  if xs.getD i 0 < m - k * sd then "Buy"
                  else if m + k * sd < xs.getD i 0 then "Sell"
                  else "N/A" : BollRow } = row :=
    Option.some.inj hf
  subst hrow
  have hsd0 : 0 ≤ sd := rollingStd_nonneg hsd
  have hlh : m - k * sd ≤ m + k * sd := by
    have := mul_nonneg hk hsd0
    linarith
  refine ⟨m, sd, hm, hsd, hsd0, rfl, rfl, rfl, ?_, ?_, ?_⟩
  · dsimp only
    by_cases h1 : xs.getD i 0 < m - k * sd
    · rw [if_pos h1]
      exact ⟨fun _ => h1, fun _ => rfl⟩
    · rw [if_neg h1]
      constructor
      · intro hb
        by_cases h2 : m + k * sd < xs.getD i 0
        · rw [if_pos h2] at hb
          exact absurd hb (by decide)
        · rw [if_neg h2] at hb
          exact absurd hb (by decide)
      · intro hb
        exact absurd hb h1
  · dsimp only
    by_cases h1 : xs.getD i 0 < m - k * sd
    · rw [if_pos h1]
      constructor
      · intro hb
        exact absurd hb (by decide)
      · intro h2
        exact absurd (lt_trans h1 (lt_of_le_of_lt hlh h2)) (lt_irrefl _)
    · rw [if_neg h1]
      by_cases h2 : m + k * sd < xs.getD i 0
      · rw [if_pos h2]
        exact ⟨fun _ => h2, fun _ => rfl⟩
      · rw [if_neg h2]
        constructor
        · intro hb
          exact absurd hb (by decide)
        · intro hb
          exact absurd hb h2
  · dsimp only
    by_cases h1 : xs.getD i 0 < m - k * sd
    · rw [if_pos h1]
      constructor
      · intro hb
        exact absurd hb (by decide)
      · rintro ⟨hn, -⟩
        exact absurd h1 hn
    · rw [if_neg h1]
      by_cases h2 : m + k * sd < xs.getD i 0
      · rw [if_pos h2]
        constructor
        · intro hb
          exact absurd hb (by decide)
        · rintro ⟨-, hn⟩
          exact absurd h2 hn
      · rw [if_neg h2]
        exact ⟨fun _ => ⟨h1, h2⟩, fun _ => rfl⟩

/-- Counterexample for C5 as stated.  The claim quantifies over every
multiplier; with `k = -1` on prices [4,0,2] and lookback 3 the bands
invert (`high = 0 < low = 4`), the day-2 close 2 is strictly above the
high band, and the code still labels it `Buy` (the buy branch is checked
first), not `Sell`. -/
theorem bollinger_counterexample :
    generate_bollinger_columns [4, 0, 2] (-1) 3 =
      [{ day := 2, price := 2, bollinger_high := 0, bollinger_low := 4,
         signal := "Buy" }] ∧
    (0 : ℝ) < 2 ∧ ("Buy" : String) ≠ "Sell" := by
  have h4 : Real.sqrt 4 = 2 := by
    rw [show (4 : ℝ) = 2 ^ 2 by norm_num]
    exact Real.sqrt_sq (by norm_num)
  have h82 : Real.sqrt 8 / Real.sqrt 2 = 2 := by
    rw [show (8 : ℝ) = 4 * 2 by norm_num,
      Real.sqrt_mul (by norm_num : (0 : ℝ) ≤ 4), h4, mul_div_assoc,
      div_self (Real.sqrt_ne_zero'.mpr (by norm_num)), mul_one]
  refine ⟨?_, by norm_num, by decide⟩
  norm_num [generate_bollinger_columns, rollingMeanR, rollingStd,
    List.range_succ, List.filterMap_cons, h4, h82]

/-- Witness for the amended C5 at the single output row of
`generate_bollinger_columns [0,0] 1 2` (a flat window: both bands equal
the price, and the signal is `N/A`). -/
theorem bollinger_signal_spec_amended_witness :
    ∃ m sd, rollingMeanR 2 [0, 0] 1 = some m ∧
      rollingStd 2 [0, 0] 1 = some sd ∧ 0 ≤ sd ∧
      (0 : ℝ) = [(0 : ℝ), 0].getD 1 0 ∧
      (0 : ℝ) = m + 1 * sd ∧
      (0 : ℝ) = m - 1 * sd ∧
      ("N/A" = "Buy" ↔ (0 : ℝ) < 0) ∧
      ("N/A" = "Sell" ↔ (0 : ℝ) < 0) ∧
      ("N/A" = "N/A" ↔ ¬ (0 : ℝ) < 0 ∧ ¬ (0 : ℝ) < 0) :=
  bollinger_signal_spec_amended [0, 0] 1 2 (by norm_num)
    { day := 1, price := 0, bollinger_high := 0, bollinger_low := 0,
      signal := "N/A" }
    (by
      have hlist : generate_bollinger_columns [0, 0] 1 2 =
          [{ day := 1, price := 0, bollinger_high := 0, bollinger_low := 0,
             signal := "N/A" }] := by
        norm_num [generate_bollinger_columns, rollingMeanR, rollingStd,
          List.range_succ, List.filterMap_cons, Real.sqrt_zero]
      rw [hlist]
      exact List.mem_singleton_self _)

/-! ## The simulation loop (run_simulation_df) -/

/-- The mutable state threaded through `_run_simulation`: the portfolio,
the auxiliary `bought_securities` set, and the single shared
`purchase_price` scalar. -/
structure SimState where
  sec_port : security_portfolio
  bought_securities : List String
  purchase_price : ℚ
  deriving DecidableEq, Repr

/-- `_get_bollinger_price`.  A row of the annotated frame is accessed by
column label, so the row is modelled as a partial map from labels to
values; a missing label raises a pandas `KeyError`.  The function reads
the labels `close_{sec}_bollinger_high` / `close_{sec}_bollinger_low`,
although `generate_bollinger_columns` writes
`close_bollinger_high_{sec}` / `close_bollinger_low_{sec}`.  Evaluation
is short-circuit, following the Python `and` chains: with the security
held, the first condition fails at the membership test before any label
is read, and the `elif` then reads close and high. -/
def get_bollinger_price (row : String → Option ℚ) (index : ℕ)
    (security : String) (st : SimState) : Except String SimState :=
  if security ∉ st.bought_securities then
    match row ("close_" ++ security) with
    | none => .error ("KeyError: " ++ "close_" ++ security)
    | some c =>
      match row ("close_" ++ security ++ "_bollinger_low") with
      | none => .error ("KeyError: " ++ "close_" ++ security ++ "_bollinger_low")
      | some lo =>
        if c < lo ∧ st.purchase_price < st.sec_port.total_cash_amt then
          match st.sec_port.buy_max_securities security c index with
          | .ok port' => .ok ⟨port', st.bought_securities ++ [security], c⟩
          | .error e => .error e
        else .ok st
  else
    match row ("close_" ++ security) with
    | none => .error ("KeyError: " ++ "close_" ++ security)
    | some c =>
      match row ("close_" ++ security ++ "_bollinger_high") with
      | none => .error ("KeyError: " ++ "close_" ++ security ++ "_bollinger_high")
      | some hi =>
        if hi < c then
          match st.sec_port.sell_all_securities security c index with
          | .ok port' =>
            .ok ⟨port', st.bought_securities.erase security, st.purchase_price⟩
          | .error e => .error e
        else .ok st

/-- `_get_ma_crossovers_price` on a row of the `generate_ma_columns`
output (its `close_{sec}` and `ma_diff_{sec}` labels match the generated
columns, so the row is passed as its record): buy max when not held, the
diff is positive and cash exceeds `purchase_price`; sell all when held,
the diff is negative and the close exceeds `purchase_price`. -/
def get_ma_crossovers_price (row : MARow) (security : String)
    (st : SimState) : Except String SimState :=
  if security ∉ st.bought_securities ∧ 0 < row.ma_diff ∧
      st.purchase_price < st.sec_port.total_cash_amt then
    match st.sec_port.buy_max_securities security row.close row.day with
    | .ok port' => .ok ⟨port', st.bought_securities ++ [security], row.close⟩
    | .error e => .error e
  else if security ∈ st.bought_securities ∧ row.ma_diff < 0 ∧
      st.purchase_price < row.close then
    match st.sec_port.sell_all_securities security row.close row.day with
    | .ok port' =>
      .ok ⟨port', st.bought_securities.erase security, st.purchase_price⟩
    | .error e => .error e
  else .ok st

/-- `run_simulation_df` for a single security on the close column with
the default `ma_crossovers` indicator: annotate via
`generate_ma_columns`, start a fresh portfolio with `purchase_price = 0`
and an empty `bought_securities` set, then iterate the surviving rows in
order, invoking `_get_ma_crossovers_price` on each row whose crossover
flag equals 1; an exception anywhere aborts the run. -/
def run_simulation_df (close : List ℚ) (nshort nlong : ℕ) (security : String)
    (start_cash_amt : ℚ) : Except String security_portfolio := do
  let annotated ← generate_ma_columns close nshort nlong
  let final ← annotated.foldlM
    (fun st row =>
      if row.crossover = 1 then get_ma_crossovers_price row security st
      else .ok st)
    (⟨security_portfolio.init start_cash_amt, [], 0⟩ : SimState)
  return final.sec_port

/-- C9: on a zero-row price series the crossover column `[0] + products`
has length 1, and assigning it to the empty frame raises a pandas
`ValueError` inside `generate_ma_columns`; the simulation with the
default `ma_crossovers` indicator therefore propagates that error
instead of returning the freshly-constructed portfolio the specification
promises. -/
theorem run_simulation_empty_bug (nshort nlong : ℕ) (security : String)
    (start_cash_amt : ℚ) :
    run_simulation_df [] nshort nlong security start_cash_amt =
      .error ("ValueError: Length of values (1) does not match length of index (0)") :=
  rfl

/-- Success equation for `buy_max_securities` under non-negative cash and
a positive price. -/
theorem buy_max_ok {port : security_portfolio} {t : String} {p : ℚ} {d : ℕ}
    (hC : 0 ≤ port.total_cash_amt) (hp : 0 < p) :
    port.buy_max_securities t p d = .ok
      { port with
          security_dict :=
            (match dictGet port.security_dict t with
             | some n => dictSet port.security_dict t (n + ⌊port.total_cash_amt / p⌋)
             | none => dictSet port.security_dict t ⌊port.total_cash_amt / p⌋)
          total_cash_amt :=
            port.total_cash_amt - (⌊port.total_cash_amt / p⌋ : ℚ) * p
          trans_df := port.trans_df ++
            [{ date := d
               security := t
               trans_type := "Buy"
               security_price := p
               amt := p * (⌊port.total_cash_amt / p⌋ : ℚ)
               total_cash_amt :=
                 port.total_cash_amt - (⌊port.total_cash_amt / p⌋ : ℚ) * p }] } := by
  have hc : ((⌊port.total_cash_amt / p⌋ : ℤ) : ℚ) * p ≤ port.total_cash_amt := by
    calc ((⌊port.total_cash_amt / p⌋ : ℤ) : ℚ) * p
        ≤ port.total_cash_amt / p * p :=
          mul_le_mul_of_nonneg_right (Int.floor_le _) hp.le
      _ = port.total_cash_amt := div_mul_cancel₀ _ hp.ne'
  unfold security_portfolio.buy_max_securities
  exact buy_securities_ok hc

/-- Success equation for `sell_all_securities` when the ticker is held. -/
theorem sell_all_ok {port : security_portfolio} {t : String} {n : ℤ}
    {p : ℚ} {d : ℕ} (hget : dictGet port.security_dict t = some n) :
    port.sell_all_securities t p d = .ok
      { port with
          security_dict := dictSet port.security_dict t (n - n)
          total_cash_amt := port.total_cash_amt + (n : ℚ) * p
          trans_df := port.trans_df ++
            [{ date := d
               security := t
               trans_type := "Sell"
               security_price := p
               amt := p * (n : ℚ)
               total_cash_amt := port.total_cash_amt + (n : ℚ) * p }] } := by
  unfold security_portfolio.sell_all_securities
  rw [hget]
  exact sell_securities_ok hget (lt_irrefl n)

/-- A call against the simulation state executed a trade: it returned
normally and the transaction log grew. -/
def executes_trade (st : SimState) (r : Except String SimState) : Prop :=
  ∃ st', r = .ok st' ∧
    st.sec_port.trans_df.length < st'.sec_port.trans_df.length

/-- A row carrying exactly the labels that `generate_bollinger_columns`
writes for security `aapl` on the close column. -/
def pipeRow : String → Option ℚ := fun key =>
  if key = "close_aapl" then some 10
  else if key = "close_bollinger_high_aapl" then some 5
  else if key = "close_bollinger_low_aapl" then some 1
  else none

/-- A row carrying the labels `_get_bollinger_price` actually reads. -/
def simRow : String → Option ℚ := fun key =>
  if key = "close_aapl" then some 10
  else if key = "close_aapl_bollinger_high" then some 5
  else if key = "close_aapl_bollinger_low" then some 1
  else none

/-- C6 (amended): on a row that carries the labels the simulation reads,
a Bollinger buy executes exactly when the security is not held, the
close is below the low band and cash exceeds `purchase_price`; a
Bollinger sell executes exactly when the security is held and the close
is above the high band — the profitability check
`row[close] > purchase_price` is commented out in the source, so sells
are NOT gated on the purchase price; moreover the band labels the
simulation reads (`close_{sec}_bollinger_high/low`) differ from those
`generate_bollinger_columns` writes (`close_bollinger_high/low_{sec}`),
so on a pipeline-annotated row the Bollinger branch raises a `KeyError`
instead of trading. -/
theorem bollinger_gating_amended :
    (∀ (row : String → Option ℚ) (index : ℕ) (security : String)
        (st : SimState) (c lo : ℚ),
      security ∉ st.bought_securities →
      row ("close_" ++ security) = some c →
      row ("close_" ++ security ++ "_bollinger_low") = some lo →
      0 ≤ st.sec_port.total_cash_amt → 0 < c →
      (executes_trade st (get_bollinger_price row index security st) ↔
        c < lo ∧ st.purchase_price < st.sec_port.total_cash_amt)) ∧
    (∀ (row : String → Option ℚ) (index : ℕ) (security : String)
        (st : SimState) (c hi : ℚ) (n : ℤ),
      security ∈ st.bought_securities →
      row ("close_" ++ security) = some c →
      row ("close_" ++ security ++ "_bollinger_high") = some hi →
      dictGet st.sec_port.security_dict security = some n →
      (executes_trade st (get_bollinger_price row index security st) ↔ hi < c)) ∧
    (∃ e, get_bollinger_price pipeRow 0 ("aapl")
        { sec_port := security_portfolio.init 100
          bought_securities := []
          purchase_price := 0 } = .error e) := by
  refine ⟨?_, ?_, ?_⟩
  · intro row index security st c lo hnot hc hlo hcash hcpos
    unfold get_bollinger_price
    rw [if_pos hnot, hc, hlo]
    dsimp only
    by_cases hcond : c < lo ∧ st.purchase_price < st.sec_port.total_cash_amt
    · rw [if_pos hcond, buy_max_ok hcash hcpos]
      dsimp only
      constructor
      · intro _
        exact hcond
      · intro _
        exact ⟨_, rfl, by simp⟩
    · rw [if_neg hcond]
      constructor
      · rintro ⟨st', hst, hlen⟩
        injection hst with hst
        subst hst
        exact absurd hlen (lt_irrefl _)
      · intro hcond2
        exact absurd hcond2 hcond
  · intro row index security st c hi n hmem hc hhi hget
    unfold get_bollinger_price
    rw [if_neg (not_not_intro hmem), hc, hhi]
    dsimp only
    by_cases hcond : hi < c
    · rw [if_pos hcond, sell_all_ok hget]
      dsimp only
      constructor
      · intro _
        exact hcond
      · intro _
        exact ⟨_, rfl, by simp⟩
    · rw [if_neg hcond]
      constructor
      · rintro ⟨st', hst, hlen⟩
        injection hst with hst
        subst hst
        exact absurd hlen (lt_irrefl _)
      · intro h2
        exact absurd h2 hcond
  · exact ⟨_, rfl⟩

/-- Counterexample for C6 as stated.  On a row with the labels the
simulation reads, with `aapl` held (3 shares), close 10 above the high
band 5 but `purchase_price = 100 ≥ close`, the claim forbids the sell
(profitability check) — yet the code sells all 3 shares. -/
theorem bollinger_gating_counterexample :
    get_bollinger_price simRow 7 ("aapl")
      { sec_port := { start_cash_amt := 100
                      total_cash_amt := 0
                      security_dict := [("aapl", 3)]
                      trans_df := [] }
        bought_securities := ["aapl"]
        purchase_price := 100 } =
      .ok { sec_port := { start_cash_amt := 100
                          total_cash_amt := 30
                          security_dict := [("aapl", 0)]
                          trans_df := [{ date := 7
                                         security := "aapl"
                                         trans_type := "Sell"
                                         security_price := 10
                                         amt := 30
                                         total_cash_amt := 30 }] }
            bought_securities := []
            purchase_price := 100 } ∧
    (10 : ℚ) ≤ 100 := by
  constructor
  · have e1 : ("close_" ++ "aapl" : String) = "close_aapl" := rfl
    have e2 : ("close_" ++ "aapl" ++ "_bollinger_high" : String) =
        "close_aapl_bollinger_high" := rfl
    have e3 : ("close_aapl" ++ "_bollinger_high" : String) =
        "close_aapl_bollinger_high" := rfl
    have ne1 : ("close_aapl_bollinger_high" : String) ≠ "close_aapl" := by decide
    norm_num [get_bollinger_price, simRow, security_portfolio.sell_all_securities,
      security_portfolio.sell_securities, dictGet, dictSet, List.erase,
      e1, e2, e3, ne1]
  · norm_num

/-- Witness for the amended C6: with nothing held, close 10 not below
the low band 1 and cash 50, no Bollinger trade executes. -/
theorem bollinger_gating_amended_witness :
    executes_trade
        { sec_port := security_portfolio.init 50
          bought_securities := []
          purchase_price := 0 }
        (get_bollinger_price simRow 0 ("aapl")
          { sec_port := security_portfolio.init 50
            bought_securities := []
            purchase_price := 0 }) ↔
      (10 : ℚ) < 1 ∧ (0 : ℚ) < (security_portfolio.init 50).total_cash_amt :=
  bollinger_gating_amended.1 simRow 0 "aapl"
    { sec_port := security_portfolio.init 50
      bought_securities := []
      purchase_price := 0 } 10 1
    (by simp) rfl rfl (by decide) (by norm_num)
